import Mathlib

/-!
Shallow embedding of the Monkey tree-walking evaluator of this repository
(src/monkey/evaluator.py and src/monkey/object.py), together with proofs
about the claims of its specification.

Modelling conventions:
* Python `None` results of `Eval` are the `Outcome.absent` constructor;
  host-language exceptions (which the evaluator never catches) are
  `Outcome.crash` with the exception's name as the message.
* Python integers live in `Rat`: the source's `/` on two `Integer`s is
  Python true division, whose result (e.g. `5 / 2 = 2.5`) is not an
  integer, so the `Integer` payload is modelled as an exact rational.
* Recursion depth is modelled with a fuel parameter; exhausting it is
  `Outcome.crash "RecursionError"`, matching the host recursion limit.
* The `environment` module is not part of src/; it is modelled from the
  spec (sections 3.2 and 4.2) as a store of frames addressed by index,
  so that the mutation performed by `Set` and the sharing of captured
  environments by closures are both represented.
-/

/-- Modelled from the spec: the AST node variants consumed by the
evaluator in src/monkey/evaluator.py (the `ast` module is not under
src/).  Only the variants the evaluator dispatches on are included;
field shapes follow the attribute accesses in the evaluator and spec
section 6.  `integerLiteral` carries a rational because runtime integer
values are modelled in `Rat` (see module comment). -/
inductive Node where
  | program (statements : List Node)
  | expressionStatement (e : Node)
  | integerLiteral (n : Rat)
  | booleanLiteral (b : Bool)
  | prefixExpression (op : String) (right : Node)
  | infixExpression (op : String) (left : Node) (right : Node)
  | blockStatement (statements : List Node)
  | ifExpression (condition : Node) (consequence : Option Node) (alternative : Option Node)
  | returnStatement (e : Node)
  | letStatement (name : String) (value : Node)
  | identifier (name : String)
  | functionLiteral (parameters : List String) (body : Node)
  | callExpression (func : Node) (arguments : List Node)

/-- Runtime objects of src/monkey/object.py.  `function` stores the
captured environment as an index into the store.  `anyObject` is
object.AnyObject, the delegating wrapper used by evalExpressions. -/
inductive Obj where
  | integer (n : Rat)
  | boolean (b : Bool)
  | null
  | returnValue (v : Obj)
  | error (message : String)
  | function (parameters : List String) (body : Node) (env : Nat)
  | anyObject (v : Obj)

/-- Result of one call of Eval: a value, Python `None`, or an uncaught
host exception. -/
inductive Outcome where
  | val (o : Obj)
  | absent
  | crash (msg : String)

/-- Modelled from the spec: one environment scope — a name-to-value
mapping plus an optional enclosing scope (spec section 3.2). -/
structure Frame where
  bindings : List (String × Obj)
  outer : Option Nat

/-- Modelled from the spec: all environments live in a store addressed
by index, so closures share their captured environment by reference. -/
abbrev Store := List Frame

/-- Look a name up in one frame's bindings. -/
def frameGet : List (String × Obj) → String → Option Obj
  | [], _ => Option.none
  | (k, v) :: rest, n => if k = n then Option.some v else frameGet rest n

/-- Bind a name in one frame's bindings, replacing an existing binding
in place (Python dict assignment keeps the key's position). -/
def frameSet : List (String × Obj) → String → Obj → List (String × Obj)
  | [], n, v => [(n, v)]
  | (k, w) :: rest, n, v => if k = n then (k, v) :: rest else (k, w) :: frameSet rest n v

/-- Modelled from the spec: Environment.Get walks the chain of enclosing
scopes outward until the name is found or the root is exhausted.  The
step counter bounds the walk so the function is total on arbitrary
stores; reachable stores have acyclic outer chains shorter than the
store, so the bound used by `envGet` never cuts a real lookup short. -/
def envGetAux : Nat → Store → Nat → String → Option Obj
  | 0, _, _, _ => Option.none
  | steps + 1, st, ref, name =>
    match st.get? ref with
    | Option.none => Option.none
    | Option.some fr =>
      match frameGet fr.bindings name with
      | Option.some v => Option.some v
      | Option.none =>
        match fr.outer with
        | Option.some o => envGetAux steps st o name
        | Option.none => Option.none

/-- Modelled from the spec: Environment.Get. -/
def envGet (st : Store) (ref : Nat) (name : String) : Option Obj :=
  envGetAux (st.length + 1) st ref name

/-- Modelled from the spec: Environment.Set binds in the current scope
only, unconditionally. -/
def envSet (st : Store) (ref : Nat) (name : String) (v : Obj) : Store :=
  match st.get? ref with
  | Option.some fr => st.set ref ⟨frameSet fr.bindings name v, fr.outer⟩
  | Option.none => st

/-- Modelled from the spec: NewEnvironment() — the root store holding a
single empty frame with no enclosing scope. -/
def rootStore : Store := [⟨[], Option.none⟩]

/-- Object type tags: the Type property of src/monkey/object.py.
AnyObject delegates to the wrapped object. -/
def typeName : Obj → String
  | .integer _ => "INTEGER"
  | .boolean _ => "BOOLEAN"
  | .null => "NULL"
  | .returnValue _ => "RETURN_VALUE"
  | .error _ => "ERROR"
  | .function _ _ _ => "FUNCTION"
  | .anyObject v => typeName v

mutual
/-- Structural equality of AST nodes, as produced by Python dataclass
`==` on the ast module's node dataclasses. -/
def nodeBeq : Node → Node → Bool
  | .program a, .program b => nodeListBeq a b
  | .expressionStatement a, .expressionStatement b => nodeBeq a b
  | .integerLiteral a, .integerLiteral b => a == b
  | .booleanLiteral a, .booleanLiteral b => a == b
  | .prefixExpression o1 r1, .prefixExpression o2 r2 => o1 == o2 && nodeBeq r1 r2
  | .infixExpression o1 l1 r1, .infixExpression o2 l2 r2 =>
    o1 == o2 && nodeBeq l1 l2 && nodeBeq r1 r2
  | .blockStatement a, .blockStatement b => nodeListBeq a b
  | .ifExpression c1 q1 a1, .ifExpression c2 q2 a2 =>
    nodeBeq c1 c2 && nodeOptBeq q1 q2 && nodeOptBeq a1 a2
  | .returnStatement a, .returnStatement b => nodeBeq a b
  | .letStatement n1 v1, .letStatement n2 v2 => n1 == n2 && nodeBeq v1 v2
  | .identifier a, .identifier b => a == b
  | .functionLiteral p1 b1, .functionLiteral p2 b2 => p1 == p2 && nodeBeq b1 b2
  | .callExpression f1 a1, .callExpression f2 a2 => nodeBeq f1 f2 && nodeListBeq a1 a2
  | _, _ => false

/-- Structural equality of AST node lists. -/
def nodeListBeq : List Node → List Node → Bool
  | [], [] => true
  | x :: xs, y :: ys => nodeBeq x y && nodeListBeq xs ys
  | _, _ => false

/-- Structural equality of optional AST nodes. -/
def nodeOptBeq : Option Node → Option Node → Bool
  | Option.none, Option.none => true
  | Option.some a, Option.some b => nodeBeq a b
  | _, _ => false
end

/-- Python `==` between two runtime objects: dataclass structural
equality, False between objects of different classes.  Used by the
evaluator's generic `==`/`!=` branches and reachable for any operand
types. -/
def pyEq : Obj → Obj → Bool
  | .integer a, .integer b => a == b
  | .boolean a, .boolean b => a == b
  | .null, .null => true
  | .returnValue a, .returnValue b => pyEq a b
  | .error a, .error b => a == b
  | .function p1 b1 e1, .function p2 b2 e2 => p1 == p2 && e1 == e2 && nodeBeq b1 b2
  | .anyObject a, .anyObject b => pyEq a b
  | _, _ => false

/-- evaluator.isError: checks the type tag (so AnyObject-wrapped errors
count as errors). -/
def isError (o : Obj) : Bool := typeName o == "ERROR"

/-- evaluator.isTruthy.  The comparisons against the NULL/TRUE/FALSE
singletons are dataclass equality, so they match any structurally
equal object; everything else (including AnyObject wrappers) is
truthy. -/
def isTruthy : Obj → Bool
  | .null => false
  | .boolean b => b
  | _ => true

/-- Python truthiness of a runtime object.  None of the Object
dataclasses define `__bool__` or `__len__`, so every object instance is
truthy; this makes the `if not function:` guard in applyFunction dead
code. -/
def pyTruthy : Obj → Bool := fun _ => true

/-- evaluator.nativeBoolToBooleanObject. -/
def nativeBoolToBooleanObject (input : Bool) : Obj := .boolean input

/-- evaluator.evalBangOperatorExpression. -/
def evalBangOperatorExpression : Obj → Obj
  | .boolean true => .boolean false
  | .boolean false => .boolean true
  | .null => .boolean true
  | _ => .boolean false

/-- evaluator.evalMinusPrefixOperatorExpression.  The `if not right`
guard is dead (the caller passes a non-None object and objects are
truthy).  An AnyObject with INTEGER tag would raise a host TypeError at
the negation; that case is unreachable because AnyObject only ever
wraps errors. -/
def evalMinusPrefixOperatorExpression (right : Obj) : Outcome :=
  if typeName right = "INTEGER" then
    match right with
    | .integer n => .val (.integer (-n))
    | _ => .crash "TypeError"
  else .val (.error ("unknown operator: -" ++ typeName right))

/-- evaluator.evalPrefixExpression. -/
def evalPrefixExpression (op : String) (right : Obj) : Outcome :=
  if op = "!" then .val (evalBangOperatorExpression right)
  else if op = "-" then evalMinusPrefixOperatorExpression right
  else .val (.error ("unknown operator: " ++ op ++ typeName right))

/-- evaluator.evalIntegerInfixExpression.  Both operands are guaranteed
by the caller to carry the INTEGER tag; the values are Python numbers,
so `/` is true division and a zero divisor raises ZeroDivisionError
uncaught.  The non-Integer fallthrough (an AnyObject wrapping an
Integer, unreachable in practice) raises a host TypeError at the
arithmetic. -/
def evalIntegerInfixExpression (op : String) (left right : Obj) : Outcome :=
  match left, right with
  | .integer a, .integer b =>
    if op = "+" then .val (.integer (a + b))
    else if op = "-" then .val (.integer (a - b))
    else if op = "*" then .val (.integer (a * b))
    else if op = "/" then
      if b = 0 then .crash "ZeroDivisionError" else .val (.integer (a / b))
    else if op = "<" then .val (nativeBoolToBooleanObject (decide (a < b)))
    else if op = ">" then .val (nativeBoolToBooleanObject (decide (b < a)))
    else if op = "==" then .val (nativeBoolToBooleanObject (a == b))
    else if op = "!=" then .val (nativeBoolToBooleanObject (!(a == b)))
    else .val (.error ("unknown operator: INTEGER " ++ op ++ " INTEGER"))
  | _, _ => .crash "TypeError"

/-- evaluator.evalInfixExpression: integer dispatch first, then the
generic `==`/`!=` (dataclass equality — checked before the type
mismatch test), then type mismatch, then unknown operator. -/
def evalInfixExpression (op : String) (left right : Obj) : Outcome :=
  if typeName left = "INTEGER" ∧ typeName right = "INTEGER" then
    evalIntegerInfixExpression op left right
  else if op = "==" then .val (nativeBoolToBooleanObject (pyEq left right))
  else if op = "!=" then .val (nativeBoolToBooleanObject (!pyEq left right))
  else if typeName left ≠ typeName right then
    .val (.error ("type mismatch: " ++ typeName left ++ " " ++ op ++ " " ++ typeName right))
  else
    .val (.error ("unknown operator: " ++ typeName left ++ " " ++ op ++ " " ++ typeName right))

/-- evaluator.evalIdentifier. -/
def evalIdentifier (name : String) (env : Nat) (st : Store) : Outcome :=
  match envGet st env name with
  | Option.some v => .val v
  | Option.none => .val (.error ("identifier not found: " ++ name))

/-- evaluator.unwrapReturnValue: unwraps exactly one ReturnValue layer
(exact class check, so an AnyObject wrapper is not unwrapped). -/
def unwrapReturnValue : Obj → Obj
  | .returnValue v => v
  | o => o

/-- The type of the recursive evaluator passed to the helper
functions. -/
abbrev EvalFn := Node → Nat → Store → Outcome × Store

/-- evaluator.evalProgram: statements in order; a ReturnValue (exact
class check) is unwrapped and returned; an Error (exact class check, so
not an AnyObject wrapper) is returned; otherwise the last statement's
result is the program's.  With no statements the annotated-only local
`result` is unbound and `return result` raises UnboundLocalError. -/
def evalProgram (ev : EvalFn) : List Node → Nat → Store → Outcome × Store
  | [], _, st => (.crash "UnboundLocalError", st)
  | s :: rest, env, st =>
    match ev s env st with
    | (.crash m, st') => (.crash m, st')
    | (.val (.returnValue v), st') => (.val v, st')
    | (.val (.error m), st') => (.val (.error m), st')
    | (r, st') => if rest.isEmpty then (r, st') else evalProgram ev rest env st'

/-- evaluator.evalBlockStatement: like evalProgram but the check is on
the type tag and a ReturnValue is returned as-is, not unwrapped.  An
empty block raises UnboundLocalError like an empty program. -/
def evalBlockStatement (ev : EvalFn) : List Node → Nat → Store → Outcome × Store
  | [], _, st => (.crash "UnboundLocalError", st)
  | s :: rest, env, st =>
    match ev s env st with
    | (.crash m, st') => (.crash m, st')
    | (.val v, st') =>
      if typeName v = "RETURN_VALUE" ∨ typeName v = "ERROR" then (.val v, st')
      else if rest.isEmpty then (.val v, st') else evalBlockStatement ev rest env st'
    | (.absent, st') =>
      if rest.isEmpty then (.absent, st') else evalBlockStatement ev rest env st'

/-- evaluator.evalIfExpression.  A None condition yields NULL; errors
propagate; a truthy condition evaluates the consequence and a falsy one
the alternative if present; a None branch result yields NULL. -/
def evalIfExpression (ev : EvalFn) (condition : Node)
    (consequence alternative : Option Node) (env : Nat) (st : Store) : Outcome × Store :=
  match ev condition env st with
  | (.crash m, st') => (.crash m, st')
  | (.absent, st') => (.val .null, st')
  | (.val c, st') =>
    if isError c then (.val c, st')
    else if isTruthy c then
      match consequence with
      | Option.none => (.val .null, st')
      | Option.some consB =>
        match ev consB env st' with
        | (.absent, st'') => (.val .null, st'')
        | (r, st'') => (r, st'')
    else
      match alternative with
      | Option.none => (.val .null, st')
      | Option.some altB =>
        match ev altB env st' with
        | (.absent, st'') => (.val .null, st'')
        | (r, st'') => (r, st'')

/-- Result of evaluator.evalExpressions: the argument vector, or an
uncaught host exception from evaluating an argument. -/
inductive ArgsOut where
  | ok (args : List Obj)
  | crash (msg : String)

/-- evaluator.evalExpressions: evaluate in order; a None result is
skipped (not appended); an error result returns a one-element vector
holding the error wrapped in AnyObject. -/
def evalExpressions (ev : EvalFn) : List Node → Nat → Store → ArgsOut × Store
  | [], _, st => (.ok [], st)
  | e :: rest, env, st =>
    match ev e env st with
    | (.crash m, st') => (.crash m, st')
    | (.absent, st') => evalExpressions ev rest env st'
    | (.val v, st') =>
      if isError v then (.ok [.anyObject v], st')
      else
        match evalExpressions ev rest env st' with
        | (.ok l, st'') => (.ok (v :: l), st'')
        | (.crash m, st'') => (.crash m, st'')

/-- evaluator.extendFunctionEnv: a fresh environment enclosed by the
function's captured environment, each parameter bound to its positional
argument (`args[paramIdx]`).  With fewer arguments than parameters the
indexing raises IndexError; extra arguments are ignored (zip
truncates). -/
def extendFunctionEnv (ps : List String) (args : List Obj) (cenv : Nat) (st : Store) :
    Except String (Store × Nat) :=
  if args.length < ps.length then .error "IndexError: list index out of range"
  else .ok (st ++ [⟨(ps.zip args).foldl (fun bs pa => frameSet bs pa.1 pa.2) [], Option.some cenv⟩],
    st.length)

/-- The single-error check in the CallExpression rule:
`len(args) == 1 and isError(args[0])`. -/
def argsIsSingleError : List Obj → Bool
  | [a] => isError a
  | _ => false

/-- evaluator.applyFunction.  `cast` does not narrow, and
`if not function:` tests Python truthiness, which every object passes,
so the `not a function` branch is dead; a non-Function callee reaches
extendFunctionEnv's attribute accesses and raises AttributeError. -/
def applyFunction (ev : EvalFn) (fn : Obj) (args : List Obj) (st : Store) : Outcome × Store :=
  if pyTruthy fn = false then (.val (.error ("not a function: " ++ typeName fn)), st)
  else
    match fn with
    | .function ps body cenv =>
      match extendFunctionEnv ps args cenv st with
      | .error m => (.crash m, st)
      | .ok (st2, ref) =>
        match ev body ref st2 with
        | (.val v, st') => (.val (unwrapReturnValue v), st')
        | (.absent, st') => (.absent, st')
        | (.crash m, st') => (.crash m, st')
    | _ => (.crash "AttributeError", st)

/-- evaluator.Eval: the dispatch on the node's exact class.  The fuel
parameter models the host recursion limit; every recursive evaluation
runs at one unit less. -/
def Eval : Nat → Node → Nat → Store → Outcome × Store
  | 0, _, _, st => (.crash "RecursionError", st)
  | fuel + 1, node, env, st =>
    match node with
    | .program stmts => evalProgram (Eval fuel) stmts env st
    | .expressionStatement e => Eval fuel e env st
    | .integerLiteral n => (.val (.integer n), st)
    | .booleanLiteral b => (.val (nativeBoolToBooleanObject b), st)
    | .prefixExpression op r =>
      match Eval fuel r env st with
      | (.crash m, st') => (.crash m, st')
      | (.absent, st') => (.absent, st')
      | (.val right, st') =>
        if isError right then (.val right, st') else (evalPrefixExpression op right, st')
    | .infixExpression op l r =>
      match Eval fuel l env st with
      | (.crash m, st1) => (.crash m, st1)
      | (.absent, st1) => (.absent, st1)
      | (.val lv, st1) =>
        if isError lv then (.val lv, st1)
        else
          match Eval fuel r env st1 with
          | (.crash m, st2) => (.crash m, st2)
          | (.absent, st2) => (.absent, st2)
          | (.val rv, st2) =>
            if isError rv then (.val rv, st2) else (evalInfixExpression op lv rv, st2)
    | .blockStatement stmts => evalBlockStatement (Eval fuel) stmts env st
    | .ifExpression c cons alt => evalIfExpression (Eval fuel) c cons alt env st
    | .returnStatement e =>
      match Eval fuel e env st with
      | (.crash m, st') => (.crash m, st')
      | (.absent, st') => (.absent, st')
      | (.val v, st') =>
        if isError v then (.val v, st') else (.val (.returnValue v), st')
    | .letStatement name value =>
      match Eval fuel value env st with
      | (.crash m, st') => (.crash m, st')
      | (.absent, st') => (.absent, st')
      | (.val v, st') =>
        if isError v then (.val v, st') else (.absent, envSet st' env name v)
    | .identifier name => (evalIdentifier name env st, st)
    | .functionLiteral ps body => (.val (.function ps body env), st)
    | .callExpression fnNode argNodes =>
      match Eval fuel fnNode env st with
      | (.crash m, st1) => (.crash m, st1)
      | (fres, st1) =>
        match fres with
        | .val fv =>
          if isError fv then (.val fv, st1)
          else
            match evalExpressions (Eval fuel) argNodes env st1 with
            | (.crash m, st2) => (.crash m, st2)
            | (.ok args, st2) =>
              if argsIsSingleError args then (.val (args.headD .null), st2)
              else applyFunction (Eval fuel) fv args st2
        | _ =>
          match evalExpressions (Eval fuel) argNodes env st1 with
          | (.crash m, st2) => (.crash m, st2)
          | (.ok args, st2) =>
            if argsIsSingleError args then (.val (args.headD .null), st2)
            else
              match fres with
              | .absent => (.absent, st2)
              | .val fv => applyFunction (Eval fuel) fv args st2
              | .crash m => (.crash m, st2)

/-! ## Concrete programs from the specification's seed scenarios -/

/-- The AST of `if (10 > 1) { if (10 > 1) { return 10; } return 1; }`
(spec seed scenario 2 and test_return_statements). -/
def nestedIfProgram : Node :=
  .program [.expressionStatement (.ifExpression
    (.infixExpression ">" (.integerLiteral 10) (.integerLiteral 1))
    (Option.some (.blockStatement [
      .expressionStatement (.ifExpression
        (.infixExpression ">" (.integerLiteral 10) (.integerLiteral 1))
        (Option.some (.blockStatement [.returnStatement (.integerLiteral 10)])) Option.none),
      .returnStatement (.integerLiteral 1)]))
    Option.none)]

/-- The AST of `let newAdder = fn(x) { fn(y) { x + y } };
let addTwo = newAdder(2); addTwo(2);` (spec seed scenario 3 and
test_closures). -/
def newAdderProgram : Node :=
  .program [
    .letStatement "newAdder" (.functionLiteral ["x"] (.blockStatement [
      .expressionStatement (.functionLiteral ["y"] (.blockStatement [
        .expressionStatement (.infixExpression "+" (.identifier "x") (.identifier "y"))]))])),
    .letStatement "addTwo" (.callExpression (.identifier "newAdder") [.integerLiteral 2]),
    .expressionStatement (.callExpression (.identifier "addTwo") [.integerLiteral 2])]

/-! ## Shared lemmas -/

/-- Python dataclass equality between runtime objects only holds between
objects of the same runtime type tag. -/
theorem pyEq_typeName : ∀ l r : Obj, pyEq l r = true → typeName l = typeName r := by
  intro l
  induction l with
  | integer a => intro r h; cases r <;> simp_all [pyEq, typeName]
  | boolean a => intro r h; cases r <;> simp_all [pyEq, typeName]
  | null => intro r h; cases r <;> simp_all [pyEq, typeName]
  | returnValue a ih => intro r h; cases r <;> simp_all [pyEq, typeName]
  | error a => intro r h; cases r <;> simp_all [pyEq, typeName]
  | function p b e => intro r h; cases r <;> simp_all [pyEq, typeName]
  | anyObject a ih =>
    intro r h
    cases r with
    | anyObject b =>
      simp only [pyEq] at h
      simpa only [typeName] using ih b h
    | integer b => simp_all [pyEq]
    | boolean b => simp_all [pyEq]
    | null => simp_all [pyEq]
    | returnValue b => simp_all [pyEq]
    | error b => simp_all [pyEq]
    | function p b e => simp_all [pyEq]

/-! ## Claim C1 -/

/-- Claim C1 (code bug, at the failing input): on a `Program` with no
statements the loop never assigns the annotated-only local `result`, so
`return result` raises UnboundLocalError instead of yielding the
absent value the claim (and test_empty) expect.  The other parts of the
claim hold, witnessed here on concrete programs: a statement yielding a
ReturnValue makes the program return the inner value immediately, and a
statement yielding an Error is returned immediately. -/
theorem c1EmptyProgramCrash :
    (Eval 1 (.program []) 0 rootStore).1 = .crash "UnboundLocalError" ∧
    (Eval 5 (.program [.returnStatement (.integerLiteral 10),
      .expressionStatement (.integerLiteral 9)]) 0 rootStore).1 = .val (.integer 10) ∧
    (Eval 5 (.program [.expressionStatement (.infixExpression "+" (.integerLiteral 5)
        (.booleanLiteral true)),
      .expressionStatement (.integerLiteral 5)]) 0 rootStore).1
      = .val (.error "type mismatch: INTEGER + BOOLEAN") :=
  ⟨rfl, rfl, rfl⟩

/-! ## Claim C2 -/

/-- Claim C2: a block statement returns a statement's ReturnValue (or
Error) result as-is — not unwrapped — short-circuiting the remaining
statements, for any recursive evaluator; and the doubly nested
`if (10 > 1) { if (10 > 1) { return 10; } return 1; }` program
evaluates to Integer 10. -/
theorem c2BlockReturnAsIs :
    (∀ (ev : EvalFn) (s : Node) (rest : List Node) (env : Nat) (st : Store) (v : Obj)
      (st' : Store), ev s env st = (.val v, st') →
      typeName v = "RETURN_VALUE" ∨ typeName v = "ERROR" →
      evalBlockStatement ev (s :: rest) env st = (.val v, st')) ∧
    (Eval 20 nestedIfProgram 0 rootStore).1 = .val (.integer 10) := by
  constructor
  · intro ev s rest env st v st' h h2
    simp only [evalBlockStatement, h]
    rw [if_pos h2]
  · rfl

/-- Witness for c2BlockReturnAsIs: the block
`{ return 7; 1; }` returns the ReturnValue wrapper itself, unharmed. -/
theorem c2Witness :
    evalBlockStatement (Eval 3) [.returnStatement (.integerLiteral 7),
      .expressionStatement (.integerLiteral 1)] 0 rootStore
      = (.val (.returnValue (.integer 7)), rootStore) :=
  c2BlockReturnAsIs.1 (Eval 3) _ _ 0 rootStore _ rootStore rfl (Or.inl rfl)

/-! ## Claim C3 -/

/-- Claim C3 (code bug, at the failing inputs): integer `/` is Python
true division, so `5 / 2` evaluates to the non-integer 5/2 (not the
truncated quotient 2 the claim states), and `5 / 0` raises an uncaught
ZeroDivisionError instead of producing the Error value
`division by zero`.  (`+`, `-`, `*` and the comparisons behave as the
claim states; the spec's design notes mark the division behaviour as a
source bug.) -/
theorem c3DivisionBug :
    evalIntegerInfixExpression "/" (.integer 5) (.integer 2)
      = .val (.integer ((5 : Rat) / 2)) ∧
    (5 : Rat) / 2 ≠ 2 ∧
    evalIntegerInfixExpression "/" (.integer 5) (.integer 0) = .crash "ZeroDivisionError" ∧
    (∀ a b : Rat, evalIntegerInfixExpression "+" (.integer a) (.integer b)
      = .val (.integer (a + b))) ∧
    (∀ a b : Rat, evalIntegerInfixExpression "-" (.integer a) (.integer b)
      = .val (.integer (a - b))) ∧
    (∀ a b : Rat, evalIntegerInfixExpression "*" (.integer a) (.integer b)
      = .val (.integer (a * b))) ∧
    (∀ a b : Rat, evalIntegerInfixExpression "<" (.integer a) (.integer b)
      = .val (.boolean (decide (a < b)))) ∧
    (∀ a b : Rat, evalIntegerInfixExpression "==" (.integer a) (.integer b)
      = .val (.boolean (a == b))) :=
  ⟨rfl, by norm_num, rfl, fun a b => rfl, fun a b => rfl, fun a b => rfl,
    fun a b => rfl, fun a b => rfl⟩

/-! ## Claim C4 -/

/-- Claim C4 is false as stated: `5 == true` does not produce the type
mismatch error — the `==` branch runs before the type check and
dataclass equality across classes is False, so the result is the
Boolean false singleton. -/
theorem c4MixedEqCounterexample :
    evalInfixExpression "==" (.integer 5) (.boolean true) = .val (.boolean false) ∧
    evalInfixExpression "==" (.integer 5) (.boolean true)
      ≠ .val (.error "type mismatch: INTEGER == BOOLEAN") := by
  refine ⟨rfl, ?_⟩
  intro h
  rw [show evalInfixExpression "==" (.integer 5) (.boolean true)
    = .val (.boolean false) from rfl] at h
  injection h with h1
  injection h1

/-- Claim C4 as amended: for operands of different type tags, every
operator other than `==` and `!=` produces the
`type mismatch: <L> <op> <R>` error, while `==` produces the Boolean
false singleton and `!=` the Boolean true singleton (dataclass equality
across types is False). -/
theorem c4MixedTypeAmended :
    ∀ (op : String) (l r : Obj), typeName l ≠ typeName r →
      (op ≠ "==" → op ≠ "!=" →
        evalInfixExpression op l r
          = .val (.error ("type mismatch: " ++ typeName l ++ " " ++ op ++ " " ++ typeName r))) ∧
      evalInfixExpression "==" l r = .val (.boolean false) ∧
      evalInfixExpression "!=" l r = .val (.boolean true) := by
  intro op l r h
  have hint : ¬(typeName l = "INTEGER" ∧ typeName r = "INTEGER") := by
    rintro ⟨h1, h2⟩
    exact h (h1.trans h2.symm)
  have hpy : pyEq l r = false := by
    cases hp : pyEq l r
    · rfl
    · exact absurd (pyEq_typeName l r hp) h
  refine ⟨?_, ?_, ?_⟩
  · intro hne hne2
    simp only [evalInfixExpression, if_neg hint, if_neg hne, if_neg hne2, if_pos h]
  · simp only [evalInfixExpression, if_neg hint, if_pos rfl, hpy, nativeBoolToBooleanObject,
      if_true]
  · have hneq : ("!=" : String) ≠ "==" := by decide
    simp only [evalInfixExpression, if_neg hint, if_neg hneq, if_pos rfl, hpy,
      nativeBoolToBooleanObject, Bool.not_false, if_true]

/-- Witness for c4MixedTypeAmended at `5 + true`, `5 == true` and
`5 != true`. -/
theorem c4Witness :
    evalInfixExpression "+" (.integer 5) (.boolean true)
      = .val (.error "type mismatch: INTEGER + BOOLEAN") ∧
    evalInfixExpression "==" (.integer 5) (.boolean true) = .val (.boolean false) ∧
    evalInfixExpression "!=" (.integer 5) (.boolean true) = .val (.boolean true) := by
  have h := c4MixedTypeAmended "+" (.integer 5) (.boolean true) (by decide)
  exact ⟨h.1 (by decide) (by decide), h.2.1, h.2.2⟩

/-! ## Claim C5 -/

/-- Claim C5 (code bug, at the failing input): the evaluator has no
`quote` special form — the CallExpression rule evaluates the callee
like any expression, so `quote(5)` yields the error
`identifier not found: quote` instead of a Quote value (test_quote
expects a Quote value wrapping the unevaluated argument AST). -/
theorem c5QuoteMissing :
    (Eval 10 (.program [.expressionStatement
      (.callExpression (.identifier "quote") [.integerLiteral 5])]) 0 rootStore).1
      = .val (.error "identifier not found: quote") :=
  rfl

/-! ## Claim C6 -/

/-- Claim C6: a function literal evaluates to a Function value
capturing the environment in force at the literal (the evaluation
returns it unchanged, with that same environment index inside); a
successful extendFunctionEnv allocates a fresh frame whose enclosing
scope is the function's captured environment (not the call site); and
the newAdder closure program evaluates to Integer 4. -/
theorem c6Closures :
    (∀ (fuel : Nat) (ps : List String) (body : Node) (env : Nat) (st : Store),
      Eval (fuel + 1) (.functionLiteral ps body) env st = (.val (.function ps body env), st)) ∧
    (∀ (ps : List String) (args : List Obj) (cenv : Nat) (st st2 : Store) (ref : Nat),
      extendFunctionEnv ps args cenv st = .ok (st2, ref) →
      ref = st.length ∧ ∃ bs, st2.get? ref = Option.some ⟨bs, Option.some cenv⟩) ∧
    (Eval 30 newAdderProgram 0 rootStore).1 = .val (.integer 4) := by
  refine ⟨fun fuel ps body env st => rfl, ?_, ?_⟩
  · intro ps args cenv st st2 ref h
    rw [extendFunctionEnv] at h
    split at h
    · exact absurd h (by simp)
    · injection h with h1
      injection h1 with h2 h3
      subst h2 h3
      refine ⟨rfl, (ps.zip args).foldl (fun bs pa => frameSet bs pa.1 pa.2) [], ?_⟩
      rw [List.get?_eq_getElem?]
      exact List.getElem?_concat_length _ _
  · have h : (Eval 30 newAdderProgram 0 rootStore).1 = .val (.integer ((2 : Rat) + 2)) := rfl
    rw [h]
    norm_num

/-- Witness for c6Closures: extending `fn(x)`'s captured environment 0
with the argument 2 allocates frame 1, bound to x and enclosed by
environment 0. -/
theorem c6Witness :
    (1 = rootStore.length ∧
      ∃ bs, (rootStore ++ [({ bindings := [("x", .integer 2)], outer := Option.some 0 } : Frame)]).get? 1
        = Option.some ⟨bs, Option.some 0⟩) :=
  c6Closures.2.1 ["x"] [.integer 2] 0 rootStore _ 1 rfl

/-! ## Claim C7 -/

/-- Claim C7 is false as stated: calling `fn(x) { x; }` with no
arguments does not yield a `wrong number of arguments` Error value —
extendFunctionEnv indexes `args[paramIdx]` with no arity check, raising
an uncaught host IndexError. -/
theorem c7ArityCounterexample :
    (Eval 10 (.program [.expressionStatement (.callExpression
      (.functionLiteral ["x"] (.blockStatement [.expressionStatement (.identifier "x")]))
      [])]) 0 rootStore).1
      = .crash "IndexError: list index out of range" :=
  rfl

/-- Claim C7 as amended: a call of a Function with fewer arguments than
parameters raises a host IndexError while binding parameters (no Error
value, no evaluation of the body); with at least as many arguments as
parameters the binding succeeds, each parameter bound positionally and
extra arguments ignored (the zip truncates). -/
theorem c7ArityAmended :
    ∀ (ev : EvalFn) (ps : List String) (body : Node) (cenv : Nat) (args : List Obj)
      (st : Store),
      (args.length < ps.length →
        applyFunction ev (.function ps body cenv) args st
          = (.crash "IndexError: list index out of range", st)) ∧
      (ps.length ≤ args.length →
        extendFunctionEnv ps args cenv st
          = .ok (st ++ [⟨(ps.zip args).foldl (fun bs pa => frameSet bs pa.1 pa.2) [],
              Option.some cenv⟩], st.length)) := by
  intro ev ps body cenv args st
  constructor
  · intro h
    simp only [applyFunction, pyTruthy, Bool.true_eq_false, if_false,
      extendFunctionEnv, if_pos h]
  · intro h
    simp only [extendFunctionEnv, if_neg (Nat.not_lt.2 h)]

/-- Witness for c7ArityAmended: `fn(x) { }` applied to no arguments
crashes with IndexError, and binding no parameters against one argument
succeeds with an empty fresh frame. -/
theorem c7Witness :
    applyFunction (Eval 1) (.function ["x"] (.blockStatement []) 0) [] rootStore
      = (.crash "IndexError: list index out of range", rootStore) ∧
    extendFunctionEnv [] [.integer 1] 0 rootStore
      = .ok (rootStore ++ [⟨[], Option.some 0⟩], 1) :=
  ⟨(c7ArityAmended (Eval 1) ["x"] (.blockStatement []) 0 [] rootStore).1 (by decide),
   (c7ArityAmended (Eval 1) [] (.blockStatement []) 0 [.integer 1] rootStore).2 (by decide)⟩

/-! ## Claim C8 -/

/-- Claim C8 (code bug, at the failing input): calling the Integer 5 as
a function (`5(3)`) does not yield the `not a function: INTEGER` Error
value — `cast` does not narrow and every object is truthy, so the
guard in applyFunction is dead and extendFunctionEnv's attribute access
on the Integer raises an uncaught AttributeError. -/
theorem c8NotAFunctionBug :
    (Eval 10 (.program [.expressionStatement
      (.callExpression (.integerLiteral 5) [.integerLiteral 3])]) 0 rootStore).1
      = .crash "AttributeError" ∧
    (∀ v : Obj, pyTruthy v = true) ∧
    applyFunction (Eval 1) (.integer 5) [.integer 3] rootStore
      ≠ (.val (.error "not a function: INTEGER"), rootStore) := by
  refine ⟨rfl, fun v => rfl, ?_⟩
  intro h
  rw [show applyFunction (Eval 1) (.integer 5) [.integer 3] rootStore
    = (.crash "AttributeError", rootStore) from rfl] at h
  injection h with h1
  injection h1

/-! ## Claim C10 -/

/-- Claim C10: an argument expression that evaluates to the absent
value (such as a let statement) is silently dropped from the argument
vector — evaluating the remaining arguments in the updated store — so
each following argument binds to an earlier parameter position; in
particular calling `fn(x) { x; }` on (let y = 1, 7) binds 7 to x and
yields Integer 7. -/
theorem c10AbsentArgumentOmitted :
    (∀ (ev : EvalFn) (e : Node) (es : List Node) (env : Nat) (st st' : Store),
      ev e env st = (.absent, st') →
      evalExpressions ev (e :: es) env st = evalExpressions ev es env st') ∧
    (Eval 20 (.program [.expressionStatement (.callExpression
      (.functionLiteral ["x"] (.blockStatement [.expressionStatement (.identifier "x")]))
      [.letStatement "y" (.integerLiteral 1), .integerLiteral 7])]) 0 rootStore).1
      = .val (.integer 7) := by
  constructor
  · intro ev e es env st st' h
    simp only [evalExpressions, h]
  · rfl

/-- Witness for c10AbsentArgumentOmitted: the argument list
(let y = 1, 7) evaluates exactly as the argument list (7) does in the
store where y was bound. -/
theorem c10Witness :
    evalExpressions (Eval 3) [.letStatement "y" (.integerLiteral 1), .integerLiteral 7]
      0 rootStore
      = evalExpressions (Eval 3) [.integerLiteral 7] 0 (envSet rootStore 0 "y" (.integer 1)) :=
  c10AbsentArgumentOmitted.1 (Eval 3) _ _ 0 rootStore _ rfl

/-! ## Claim C9: the ReturnValue nesting invariant

The claim as stated fails: an if-expression whose block executes a
`return` makes the if-expression itself evaluate to a ReturnValue, and
the ReturnStatement rule wraps whatever non-error value its expression
produced, so `return if (true) { return 5; };` wraps twice.  The
amended claim restricts the statement to nodes conforming to the
statement/expression grammar that contain no if-expression, evaluated
in stores whose values carry no ReturnValue (and whose function bodies
are such blocks); under those conditions no nested ReturnValue can
arise.  The predicates below capture that grammar and invariant. -/

mutual
/-- Expression-grammar nodes containing no if-expression. -/
inductive GoodExpr : Node → Prop
  | int (n : Rat) : GoodExpr (.integerLiteral n)
  | bool (b : Bool) : GoodExpr (.booleanLiteral b)
  | ident (name : String) : GoodExpr (.identifier name)
  | pre (op : String) {r : Node} : GoodExpr r → GoodExpr (.prefixExpression op r)
  | inf (op : String) {l r : Node} : GoodExpr l → GoodExpr r →
      GoodExpr (.infixExpression op l r)
  | fn (ps : List String) {body : Node} : GoodBlock body → GoodExpr (.functionLiteral ps body)
  | call {f : Node} {args : List Node} : GoodExpr f → GoodExprList args →
      GoodExpr (.callExpression f args)

/-- Lists of if-free expression-grammar nodes. -/
inductive GoodExprList : List Node → Prop
  | nil : GoodExprList []
  | cons {e : Node} {es : List Node} : GoodExpr e → GoodExprList es → GoodExprList (e :: es)

/-- Statement-grammar nodes containing no if-expression. -/
inductive GoodStmt : Node → Prop
  | expr {e : Node} : GoodExpr e → GoodStmt (.expressionStatement e)
  | letS (name : String) {e : Node} : GoodExpr e → GoodStmt (.letStatement name e)
  | ret {e : Node} : GoodExpr e → GoodStmt (.returnStatement e)

/-- Lists of if-free statement-grammar nodes. -/
inductive GoodStmtList : List Node → Prop
  | nil : GoodStmtList []
  | cons {s : Node} {ss : List Node} : GoodStmt s → GoodStmtList ss → GoodStmtList (s :: ss)

/-- Block statements holding if-free statement-grammar statements. -/
inductive GoodBlock : Node → Prop
  | block {ss : List Node} : GoodStmtList ss → GoodBlock (.blockStatement ss)
end

/-- Program nodes holding if-free statement-grammar statements. -/
inductive GoodProgram : Node → Prop
  | prog {ss : List Node} : GoodStmtList ss → GoodProgram (.program ss)

/-- Objects carrying no ReturnValue wrapper anywhere, with if-free
grammar-conforming function bodies. -/
inductive ObjOK : Obj → Prop
  | int (n : Rat) : ObjOK (.integer n)
  | bool (b : Bool) : ObjOK (.boolean b)
  | null : ObjOK .null
  | err (m : String) : ObjOK (.error m)
  | wrap {v : Obj} : ObjOK v → ObjOK (.anyObject v)
  | fn (ps : List String) {body : Node} (env : Nat) :
      GoodBlock body → ObjOK (.function ps body env)

/-- Stores all of whose bound values satisfy ObjOK. -/
def StoreOK (st : Store) : Prop := ∀ fr ∈ st, ∀ p ∈ fr.bindings, ObjOK p.2

/-- Result shape of evaluating an if-free expression: any produced
value is ObjOK (in particular not a ReturnValue), and the store
invariant is preserved. -/
def ExprResP (p : Outcome × Store) : Prop :=
  (∀ v, p.1 = .val v → ObjOK v) ∧ StoreOK p.2

/-- Result shape of evaluating an if-free statement, block or program:
any produced value is ObjOK or a single ReturnValue wrap of an ObjOK
value, and the store invariant is preserved. -/
def StmtResP (p : Outcome × Store) : Prop :=
  (∀ v, p.1 = .val v → ObjOK v ∨ ∃ w, v = .returnValue w ∧ ObjOK w) ∧ StoreOK p.2

theorem exprResP_stmtResP {p : Outcome × Store} (h : ExprResP p) : StmtResP p :=
  ⟨fun v hv => Or.inl (h.1 v hv), h.2⟩

theorem frameGet_objOK {bs : List (String × Obj)} (hbs : ∀ p ∈ bs, ObjOK p.2)
    {name : String} {v : Obj} (h : frameGet bs name = Option.some v) : ObjOK v := by
  induction bs with
  | nil => simp [frameGet] at h
  | cons hd tl ih =>
    obtain ⟨k, w⟩ := hd
    rw [frameGet] at h
    split at h
    · injection h with h1
      subst h1
      exact hbs (k, w) (by simp)
    · exact ih (fun p hp => hbs p (List.mem_cons_of_mem _ hp)) h

theorem frameSet_objOK {bs : List (String × Obj)} (hbs : ∀ p ∈ bs, ObjOK p.2)
    {name : String} {v : Obj} (hv : ObjOK v) :
    ∀ p ∈ frameSet bs name v, ObjOK p.2 := by
  induction bs with
  | nil =>
    intro p hp
    rw [frameSet] at hp
    simp at hp
    subst hp
    exact hv
  | cons hd tl ih =>
    obtain ⟨k, w⟩ := hd
    intro p hp
    rw [frameSet] at hp
    split at hp
    · rcases List.mem_cons.1 hp with h1 | h2
      · subst h1; exact hv
      · exact hbs p (List.mem_cons_of_mem _ h2)
    · rcases List.mem_cons.1 hp with h1 | h2
      · subst h1; exact hbs (k, w) (by simp)
      · exact ih (fun q hq => hbs q (List.mem_cons_of_mem _ hq)) p h2

theorem envGetAux_objOK {st : Store} (hst : StoreOK st) :
    ∀ (steps ref : Nat) {name : String} {v : Obj},
      envGetAux steps st ref name = Option.some v → ObjOK v := by
  intro steps
  induction steps with
  | zero => intro ref name v h; simp [envGetAux] at h
  | succ n ih =>
    intro ref name v h
    rw [envGetAux] at h
    split at h
    · simp at h
    · rename_i fr hg
      split at h
      · rename_i w hf
        injection h with h1
        subst h1
        exact frameGet_objOK (hst fr (List.get?_mem hg)) hf
      · split at h
        · rename_i hf o ho
          exact ih o h
        · simp at h

theorem envGet_objOK {st : Store} {ref : Nat} {name : String} {v : Obj}
    (hst : StoreOK st) (h : envGet st ref name = Option.some v) : ObjOK v :=
  envGetAux_objOK hst _ _ h

theorem envSet_storeOK {st : Store} {ref : Nat} {name : String} {v : Obj}
    (hst : StoreOK st) (hv : ObjOK v) : StoreOK (envSet st ref name v) := by
  rw [envSet]
  cases hg : st.get? ref with
  | none => exact hst
  | some fr =>
    intro fr' hfr' p hp
    rcases List.mem_or_eq_of_mem_set hfr' with h1 | h2
    · exact hst fr' h1 p hp
    · subst h2
      exact frameSet_objOK (hst fr (List.get?_mem hg)) hv p hp

theorem foldl_frameSet_objOK :
    ∀ (l : List (String × Obj)) (acc : List (String × Obj)),
      (∀ p ∈ acc, ObjOK p.2) → (∀ p ∈ l, ObjOK p.2) →
      ∀ p ∈ l.foldl (fun bs pa => frameSet bs pa.1 pa.2) acc, ObjOK p.2 := by
  intro l
  induction l with
  | nil => intro acc hacc _ p hp; exact hacc p hp
  | cons hd tl ih =>
    intro acc hacc hl p hp
    rw [List.foldl_cons] at hp
    exact ih _ (frameSet_objOK hacc (hl hd (by simp)))
      (fun q hq => hl q (List.mem_cons_of_mem _ hq)) p hp

theorem extendFunctionEnv_storeOK {ps : List String} {args : List Obj} {cenv : Nat}
    {st st2 : Store} {ref : Nat} (hst : StoreOK st) (hargs : ∀ a ∈ args, ObjOK a)
    (h : extendFunctionEnv ps args cenv st = .ok (st2, ref)) : StoreOK st2 := by
  rw [extendFunctionEnv] at h
  split at h
  · exact Except.noConfusion h
  · injection h with h1
    injection h1 with h2 h3
    subst h2
    intro fr hfr p hp
    rcases List.mem_append.1 hfr with h1 | h1
    · exact hst fr h1 p hp
    · simp at h1
      subst h1
      refine foldl_frameSet_objOK _ [] (by simp) ?_ p hp
      intro q hq
      obtain ⟨q1, q2⟩ := q
      exact hargs q2 (List.of_mem_zip hq).2

theorem evalBang_objOK (r : Obj) : ObjOK (evalBangOperatorExpression r) := by
  cases r with
  | boolean b => cases b <;> exact ObjOK.bool _
  | integer n => exact ObjOK.bool _
  | null => exact ObjOK.bool _
  | returnValue v => exact ObjOK.bool _
  | error m => exact ObjOK.bool _
  | function p b e => exact ObjOK.bool _
  | anyObject v => exact ObjOK.bool _

theorem evalMinus_out {r v : Obj} (h : evalMinusPrefixOperatorExpression r = .val v) :
    ObjOK v := by
  cases r with
  | integer n =>
    have h' : Outcome.val (Obj.integer (-n)) = Outcome.val v := h
    injection h' with h1; subst h1; exact ObjOK.int _
  | anyObject w =>
    have h' : (if typeName (Obj.anyObject w) = "INTEGER" then Outcome.crash "TypeError"
      else Outcome.val (Obj.error ("unknown operator: -" ++ typeName (Obj.anyObject w))))
      = Outcome.val v := h
    by_cases ht : typeName (Obj.anyObject w) = "INTEGER"
    · rw [if_pos ht] at h'
      exact Outcome.noConfusion h'
    · rw [if_neg ht] at h'
      injection h' with h1; subst h1; exact ObjOK.err _
  | boolean b =>
    have h' : Outcome.val (Obj.error ("unknown operator: -" ++ typeName (Obj.boolean b)))
      = Outcome.val v := h
    injection h' with h1; subst h1; exact ObjOK.err _
  | null =>
    have h' : Outcome.val (Obj.error ("unknown operator: -" ++ typeName Obj.null))
      = Outcome.val v := h
    injection h' with h1; subst h1; exact ObjOK.err _
  | returnValue w =>
    have h' : Outcome.val (Obj.error ("unknown operator: -" ++ typeName (Obj.returnValue w)))
      = Outcome.val v := h
    injection h' with h1; subst h1; exact ObjOK.err _
  | error m =>
    have h' : Outcome.val (Obj.error ("unknown operator: -" ++ typeName (Obj.error m)))
      = Outcome.val v := h
    injection h' with h1; subst h1; exact ObjOK.err _
  | function p b e =>
    have h' : Outcome.val (Obj.error ("unknown operator: -" ++ typeName (Obj.function p b e)))
      = Outcome.val v := h
    injection h' with h1; subst h1; exact ObjOK.err _

theorem evalPrefix_out {op : String} {r v : Obj} (h : evalPrefixExpression op r = .val v) :
    ObjOK v := by
  rw [evalPrefixExpression] at h
  split at h
  · injection h with h1; subst h1; exact evalBang_objOK r
  · split at h
    · exact evalMinus_out h
    · injection h with h1; subst h1; exact ObjOK.err _

theorem evalIntegerInfix_out {op : String} {l r v : Obj}
    (h : evalIntegerInfixExpression op l r = .val v) : ObjOK v := by
  cases l with
  | integer a =>
    cases r with
    | integer b =>
      rw [evalIntegerInfixExpression] at h
      split_ifs at h <;> injection h with h1 <;> subst h1 <;>
        first
        | exact ObjOK.int _
        | exact ObjOK.bool _
        | exact ObjOK.err _
    | boolean b => exact Outcome.noConfusion h
    | null => exact Outcome.noConfusion h
    | returnValue w => exact Outcome.noConfusion h
    | error m => exact Outcome.noConfusion h
    | function p b e => exact Outcome.noConfusion h
    | anyObject w => exact Outcome.noConfusion h
  | boolean b => exact Outcome.noConfusion h
  | null => exact Outcome.noConfusion h
  | returnValue w => exact Outcome.noConfusion h
  | error m => exact Outcome.noConfusion h
  | function p b e => exact Outcome.noConfusion h
  | anyObject w => exact Outcome.noConfusion h

theorem evalInfix_out {op : String} {l r v : Obj}
    (h : evalInfixExpression op l r = .val v) : ObjOK v := by
  rw [evalInfixExpression] at h
  split_ifs at h
  · exact evalIntegerInfix_out h
  · injection h with h1; subst h1; exact ObjOK.bool _
  · injection h with h1; subst h1; exact ObjOK.bool _
  · injection h with h1; subst h1; exact ObjOK.err _
  · injection h with h1; subst h1; exact ObjOK.err _

theorem evalIdentifier_out {name : String} {env : Nat} {st : Store} {v : Obj}
    (hst : StoreOK st) (h : evalIdentifier name env st = .val v) : ObjOK v := by
  rw [evalIdentifier] at h
  cases hg : envGet st env name with
  | some w => rw [hg] at h; injection h with h1; subst h1; exact envGet_objOK hst hg
  | none => rw [hg] at h; injection h with h1; subst h1; exact ObjOK.err _

theorem unwrap_objOK {v : Obj} (h : ObjOK v ∨ ∃ w, v = .returnValue w ∧ ObjOK w) :
    ObjOK (unwrapReturnValue v) := by
  rcases h with h | ⟨w, rfl, hw⟩
  · cases h with
    | int n => exact ObjOK.int n
    | bool b => exact ObjOK.bool b
    | null => exact ObjOK.null
    | err m => exact ObjOK.err m
    | wrap hv => exact ObjOK.wrap hv
    | fn ps env hb => exact ObjOK.fn ps env hb
  · exact hw

theorem argsIsSingleError_shape {args : List Obj} (h : argsIsSingleError args = true) :
    ∃ a, args = [a] := by
  cases args with
  | nil => simp [argsIsSingleError] at h
  | cons a t =>
    cases t with
    | nil => exact ⟨a, rfl⟩
    | cons b u => simp [argsIsSingleError] at h

theorem evalProgram_ok (ev : EvalFn)
    (hev : ∀ s env st, StoreOK st → GoodStmt s → StmtResP (ev s env st)) :
    ∀ stmts env st, StoreOK st → GoodStmtList stmts →
      ExprResP (evalProgram ev stmts env st) := by
  intro stmts
  induction stmts with
  | nil =>
    intro env st hst _
    exact ⟨fun v hv => by simp [evalProgram] at hv, hst⟩
  | cons s rest ih =>
    intro env st hst hg
    cases hg with
    | cons hs hrest =>
      have h1 := hev s env st hst hs
      simp only [evalProgram]
      split
      · rename_i m st' heq
        rw [heq] at h1
        exact ⟨fun v hv => by simp at hv, h1.2⟩
      · rename_i v st' heq
        rw [heq] at h1
        rcases h1.1 _ rfl with hOK | ⟨w, hw, hOK⟩
        · cases hOK
        · injection hw with h2
          subst h2
          exact ⟨fun u hu => by injection hu with h3; subst h3; exact hOK, h1.2⟩
      · rename_i m st' heq
        rw [heq] at h1
        exact ⟨fun u hu => by injection hu with h3; subst h3; exact ObjOK.err m, h1.2⟩
      · rename_i x r st' hnc hnr hne heq
        rw [heq] at h1
        split
        · refine ⟨fun u hu => ?_, h1.2⟩
          have hu' : r = Outcome.val u := hu
          rcases h1.1 u hu with hOK | ⟨w, hw, _⟩
          · exact hOK
          · exact absurd (by rw [hu', hw] : r = Outcome.val (Obj.returnValue w))
              (fun hh => hnr w hh)
        · exact ih env st' h1.2 hrest

theorem evalBlockStatement_ok (ev : EvalFn)
    (hev : ∀ s env st, StoreOK st → GoodStmt s → StmtResP (ev s env st)) :
    ∀ stmts env st, StoreOK st → GoodStmtList stmts →
      StmtResP (evalBlockStatement ev stmts env st) := by
  intro stmts
  induction stmts with
  | nil =>
    intro env st hst _
    exact ⟨fun v hv => by simp [evalBlockStatement] at hv, hst⟩
  | cons s rest ih =>
    intro env st hst hg
    cases hg with
    | cons hs hrest =>
      have h1 := hev s env st hst hs
      simp only [evalBlockStatement]
      split
      · rename_i m st' heq
        rw [heq] at h1
        exact ⟨fun v hv => by simp at hv, h1.2⟩
      · rename_i v st' heq
        rw [heq] at h1
        split
        · exact ⟨fun u hu => by injection hu with h3; subst h3; exact h1.1 _ rfl, h1.2⟩
        · split
          · exact ⟨fun u hu => by injection hu with h3; subst h3; exact h1.1 _ rfl, h1.2⟩
          · exact ih env st' h1.2 hrest
      · rename_i st' heq
        rw [heq] at h1
        split
        · exact ⟨fun v hv => by simp at hv, h1.2⟩
        · exact ih env st' h1.2 hrest

theorem evalExpressions_ok (ev : EvalFn)
    (hev : ∀ e env st, StoreOK st → GoodExpr e → ExprResP (ev e env st)) :
    ∀ exps env st, StoreOK st → GoodExprList exps →
      (∀ l, (evalExpressions ev exps env st).1 = .ok l → ∀ a ∈ l, ObjOK a) ∧
      StoreOK (evalExpressions ev exps env st).2 := by
  intro exps
  induction exps with
  | nil =>
    intro env st hst _
    exact ⟨fun l hl a ha => by simp [evalExpressions] at hl; subst hl; simp at ha, hst⟩
  | cons e rest ih =>
    intro env st hst hg
    cases hg with
    | cons he hrest =>
      have h1 := hev e env st hst he
      simp only [evalExpressions]
      split
      · rename_i m st' heq
        rw [heq] at h1
        exact ⟨fun l hl => by simp at hl, h1.2⟩
      · rename_i st' heq
        rw [heq] at h1
        exact ih env st' h1.2 hrest
      · rename_i v st' heq
        rw [heq] at h1
        split
        · refine ⟨fun l hl a ha => ?_, h1.2⟩
          injection hl with h3
          subst h3
          simp at ha
          subst ha
          exact ObjOK.wrap (h1.1 _ rfl)
        · have ihr := ih env st' h1.2 hrest
          split
          · rename_i l st'' heq2
            refine ⟨fun l2 hl2 a ha => ?_, ?_⟩
            · injection hl2 with h3
              subst h3
              rcases List.mem_cons.1 ha with h4 | h4
              · subst h4
                exact h1.1 _ rfl
              · refine ihr.1 l ?_ a h4
                rw [heq2]
            · have := ihr.2
              rw [heq2] at this
              exact this
          · rename_i m st'' heq2
            refine ⟨fun l2 hl2 => by simp at hl2, ?_⟩
            have := ihr.2
            rw [heq2] at this
            exact this

theorem applyFunction_ok (ev : EvalFn)
    (hevB : ∀ b env st, StoreOK st → GoodBlock b → StmtResP (ev b env st)) :
    ∀ fn args st, StoreOK st → ObjOK fn → (∀ a ∈ args, ObjOK a) →
      ExprResP (applyFunction ev fn args st) := by
  intro fn args st hst hfn hargs
  cases hfn with
  | int n => exact ⟨fun v hv => Outcome.noConfusion hv, hst⟩
  | bool b => exact ⟨fun v hv => Outcome.noConfusion hv, hst⟩
  | null => exact ⟨fun v hv => Outcome.noConfusion hv, hst⟩
  | err m => exact ⟨fun v hv => Outcome.noConfusion hv, hst⟩
  | wrap hw => exact ⟨fun v hv => Outcome.noConfusion hv, hst⟩
  | fn ps env hb =>
    rename_i body
    show ExprResP (match extendFunctionEnv ps args env st with
      | .error m => (Outcome.crash m, st)
      | .ok (st2, ref) =>
        match ev body ref st2 with
        | (.val v, st') => (.val (unwrapReturnValue v), st')
        | (.absent, st') => (.absent, st')
        | (.crash m, st') => (.crash m, st'))
    split
    · exact ⟨fun v hv => by simp at hv, hst⟩
    · rename_i st2 ref heq
      have hst2 := extendFunctionEnv_storeOK hst hargs heq
      have h2 := hevB body ref st2 hst2 hb
      split
      · rename_i v st' heq2
        rw [heq2] at h2
        exact ⟨fun u hu => by
          injection hu with h3
          subst h3
          exact unwrap_objOK (h2.1 _ rfl), h2.2⟩
      · rename_i st' heq2
        rw [heq2] at h2
        exact ⟨fun v hv => by simp at hv, h2.2⟩
      · rename_i m st' heq2
        rw [heq2] at h2
        exact ⟨fun v hv => by simp at hv, h2.2⟩

theorem evalOK : ∀ (fuel : Nat) (node : Node) (env : Nat) (st : Store), StoreOK st →
    (GoodExpr node → ExprResP (Eval fuel node env st)) ∧
    ((GoodStmt node ∨ GoodBlock node ∨ GoodProgram node) → StmtResP (Eval fuel node env st)) := by
  intro fuel
  induction fuel with
  | zero =>
    intro node env st hst
    exact ⟨fun _ => ⟨fun v hv => Outcome.noConfusion hv, hst⟩,
           fun _ => ⟨fun v hv => Outcome.noConfusion hv, hst⟩⟩
  | succ fuel ih =>
    intro node env st hst
    have ihE : ∀ n env st, StoreOK st → GoodExpr n → ExprResP (Eval fuel n env st) :=
      fun n e s hs hg => (ih n e s hs).1 hg
    have ihS : ∀ n env st, StoreOK st → GoodStmt n → StmtResP (Eval fuel n env st) :=
      fun n e s hs hg => (ih n e s hs).2 (Or.inl hg)
    have ihB : ∀ n env st, StoreOK st → GoodBlock n → StmtResP (Eval fuel n env st) :=
      fun n e s hs hg => (ih n e s hs).2 (Or.inr (Or.inl hg))
    cases node with
    | program stmts =>
      refine ⟨fun hg => (nomatch hg), fun hg => ?_⟩
      rcases hg with hg | hg | hg
      · cases hg
      · cases hg
      · cases hg with
        | prog hss =>
          exact exprResP_stmtResP (evalProgram_ok (Eval fuel) ihS stmts env st hst hss)
    | expressionStatement e =>
      refine ⟨fun hg => (nomatch hg), fun hg => ?_⟩
      rcases hg with hg | hg | hg
      · cases hg with
        | expr he => exact exprResP_stmtResP (ihE e env st hst he)
      · cases hg
      · cases hg
    | integerLiteral n =>
      refine ⟨fun _ => ?_, fun hg => by rcases hg with hg | hg | hg <;> cases hg⟩
      refine ⟨fun v hv => ?_, hst⟩
      have hv' : Outcome.val (Obj.integer n) = Outcome.val v := hv
      injection hv' with h3
      subst h3
      exact ObjOK.int n
    | booleanLiteral b =>
      refine ⟨fun _ => ?_, fun hg => by rcases hg with hg | hg | hg <;> cases hg⟩
      refine ⟨fun v hv => ?_, hst⟩
      have hv' : Outcome.val (Obj.boolean b) = Outcome.val v := hv
      injection hv' with h3
      subst h3
      exact ObjOK.bool b
    | prefixExpression op r =>
      refine ⟨fun hg => ?_, fun hg => by rcases hg with hg | hg | hg <;> cases hg⟩
      cases hg with
      | pre _ hr =>
        have h1 := ihE r env st hst hr
        simp only [Eval]
        split
        · rename_i m st' heq
          rw [heq] at h1
          exact ⟨fun v hv => by simp at hv, h1.2⟩
        · rename_i st' heq
          rw [heq] at h1
          exact ⟨fun v hv => by simp at hv, h1.2⟩
        · rename_i right st' heq
          rw [heq] at h1
          split
          · refine ⟨fun v hv => ?_, h1.2⟩
            have hv' : Outcome.val right = Outcome.val v := hv
            injection hv' with h3
            subst h3
            exact h1.1 _ rfl
          · exact ⟨fun v hv => evalPrefix_out hv, h1.2⟩
    | infixExpression op l r =>
      refine ⟨fun hg => ?_, fun hg => by rcases hg with hg | hg | hg <;> cases hg⟩
      cases hg with
      | inf _ hl hr =>
        have h1 := ihE l env st hst hl
        simp only [Eval]
        split
        · rename_i m st1 heq
          rw [heq] at h1
          exact ⟨fun v hv => by simp at hv, h1.2⟩
        · rename_i st1 heq
          rw [heq] at h1
          exact ⟨fun v hv => by simp at hv, h1.2⟩
        · rename_i lv st1 heq
          rw [heq] at h1
          split
          · refine ⟨fun v hv => ?_, h1.2⟩
            have hv' : Outcome.val lv = Outcome.val v := hv
            injection hv' with h3
            subst h3
            exact h1.1 _ rfl
          · have h2 := ihE r env st1 h1.2 hr
            split
            · rename_i m st2 heq2
              rw [heq2] at h2
              exact ⟨fun v hv => by simp at hv, h2.2⟩
            · rename_i st2 heq2
              rw [heq2] at h2
              exact ⟨fun v hv => by simp at hv, h2.2⟩
            · rename_i rv st2 heq2
              rw [heq2] at h2
              split
              · refine ⟨fun v hv => ?_, h2.2⟩
                have hv' : Outcome.val rv = Outcome.val v := hv
                injection hv' with h3
                subst h3
                exact h2.1 _ rfl
              · exact ⟨fun v hv => evalInfix_out hv, h2.2⟩
    | blockStatement stmts =>
      refine ⟨fun hg => (nomatch hg), fun hg => ?_⟩
      rcases hg with hg | hg | hg
      · cases hg
      · cases hg with
        | block hss =>
          exact evalBlockStatement_ok (Eval fuel) ihS stmts env st hst hss
      · cases hg
    | ifExpression c q a =>
      refine ⟨fun hg => (nomatch hg), fun hg => ?_⟩
      rcases hg with hg | hg | hg <;> cases hg
    | returnStatement e =>
      refine ⟨fun hg => (nomatch hg), fun hg => ?_⟩
      rcases hg with hg | hg | hg
      · cases hg with
        | ret he =>
          have h1 := ihE e env st hst he
          simp only [Eval]
          split
          · rename_i m st' heq
            rw [heq] at h1
            exact ⟨fun v hv => by simp at hv, h1.2⟩
          · rename_i st' heq
            rw [heq] at h1
            exact ⟨fun v hv => by simp at hv, h1.2⟩
          · rename_i v st' heq
            rw [heq] at h1
            split
            · refine ⟨fun u hu => ?_, h1.2⟩
              have hu' : Outcome.val v = Outcome.val u := hu
              injection hu' with h3
              subst h3
              exact Or.inl (h1.1 _ rfl)
            · refine ⟨fun u hu => ?_, h1.2⟩
              have hu' : Outcome.val (Obj.returnValue v) = Outcome.val u := hu
              injection hu' with h3
              subst h3
              exact Or.inr ⟨v, rfl, h1.1 _ rfl⟩
      · cases hg
      · cases hg
    | letStatement name value =>
      refine ⟨fun hg => (nomatch hg), fun hg => ?_⟩
      rcases hg with hg | hg | hg
      · cases hg with
        | letS _ he =>
          have h1 := ihE value env st hst he
          simp only [Eval]
          split
          · rename_i m st' heq
            rw [heq] at h1
            exact ⟨fun v hv => by simp at hv, h1.2⟩
          · rename_i st' heq
            rw [heq] at h1
            exact ⟨fun v hv => by simp at hv, h1.2⟩
          · rename_i v st' heq
            rw [heq] at h1
            split
            · refine ⟨fun u hu => ?_, h1.2⟩
              have hu' : Outcome.val v = Outcome.val u := hu
              injection hu' with h3
              subst h3
              exact Or.inl (h1.1 _ rfl)
            · exact ⟨fun u hu => Outcome.noConfusion hu,
                envSet_storeOK h1.2 (h1.1 _ rfl)⟩
      · cases hg
      · cases hg
    | identifier name =>
      refine ⟨fun _ => ⟨fun v hv => evalIdentifier_out hst hv, hst⟩,
        fun hg => by rcases hg with hg | hg | hg <;> cases hg⟩
    | functionLiteral ps body =>
      refine ⟨fun hg => ?_, fun hg => by rcases hg with hg | hg | hg <;> cases hg⟩
      cases hg with
      | fn _ hb =>
        refine ⟨fun v hv => ?_, hst⟩
        have hv' : Outcome.val (Obj.function ps body env) = Outcome.val v := hv
        injection hv' with h3
        subst h3
        exact ObjOK.fn ps env hb
    | callExpression fnNode argNodes =>
      refine ⟨fun hg => ?_, fun hg => by rcases hg with hg | hg | hg <;> cases hg⟩
      cases hg with
      | call hf hargsG =>
        have h1 := ihE fnNode env st hst hf
        simp only [Eval]
        split
        · rename_i m st1 heq
          rw [heq] at h1
          exact ⟨fun v hv => by simp at hv, h1.2⟩
        · rename_i x fres st1 hncr heq
          rw [heq] at h1
          split
          · rename_i fv
            split
            · refine ⟨fun v hv => ?_, h1.2⟩
              have hv' : Outcome.val fv = Outcome.val v := hv
              injection hv' with h3
              subst h3
              exact h1.1 _ rfl
            · have hexp := evalExpressions_ok (Eval fuel) ihE argNodes env st1 h1.2 hargsG
              split
              · rename_i m st2 heq2
                refine ⟨fun v hv => by simp at hv, ?_⟩
                have h4 := hexp.2
                rw [heq2] at h4
                exact h4
              · rename_i args st2 heq2
                have hargsOK : ∀ a ∈ args, ObjOK a := by
                  intro a ha
                  refine hexp.1 args ?_ a ha
                  rw [heq2]
                have hst2 : StoreOK st2 := by
                  have h4 := hexp.2
                  rw [heq2] at h4
                  exact h4
                split
                · rename_i hsing
                  obtain ⟨a, rfl⟩ := argsIsSingleError_shape hsing
                  refine ⟨fun v hv => ?_, hst2⟩
                  have hv' : Outcome.val a = Outcome.val v := hv
                  injection hv' with h3
                  subst h3
                  exact hargsOK a (by simp)
                · exact applyFunction_ok (Eval fuel) ihB fv args st2 hst2 (h1.1 fv rfl) hargsOK
          · rename_i hnv
            have hexp := evalExpressions_ok (Eval fuel) ihE argNodes env st1 h1.2 hargsG
            split
            · rename_i m st2 heq2
              refine ⟨fun v hv => by simp at hv, ?_⟩
              have h4 := hexp.2
              rw [heq2] at h4
              exact h4
            · rename_i args st2 heq2
              have hargsOK : ∀ a ∈ args, ObjOK a := by
                intro a ha
                refine hexp.1 args ?_ a ha
                rw [heq2]
              have hst2 : StoreOK st2 := by
                have h4 := hexp.2
                rw [heq2] at h4
                exact h4
              split
              · rename_i hsing
                obtain ⟨a, rfl⟩ := argsIsSingleError_shape hsing
                refine ⟨fun v hv => ?_, hst2⟩
                have hv' : Outcome.val a = Outcome.val v := hv
                injection hv' with h3
                subst h3
                exact hargsOK a (by simp)
              · split
                · exact ⟨fun v hv => Outcome.noConfusion hv, hst2⟩
                · rename_i fv
                  exact absurd rfl (hnv fv)
                · exact ⟨fun v hv => Outcome.noConfusion hv, hst2⟩

/-- Claim C9 is false as stated: a return statement whose expression is
an if-expression whose block executes a `return` wraps an existing
ReturnValue a second time — `return if (true) { return 5; };` evaluates
to ReturnValue(ReturnValue(Integer 5)). -/
theorem c9NestedReturnCounterexample :
    (Eval 10 (.returnStatement (.ifExpression (.booleanLiteral true)
      (Option.some (.blockStatement [.returnStatement (.integerLiteral 5)]))
      Option.none)) 0 rootStore).1
      = .val (.returnValue (.returnValue (.integer 5))) :=
  rfl

/-- Claim C9 as amended: for every AST node conforming to the
statement/expression grammar and containing no if-expression (the only
construct that lets a return statement's expression itself evaluate to
a ReturnValue), evaluated in a store whose bound values carry no
ReturnValue and whose function bodies are such grammar-conforming
blocks, Eval never produces a nested ReturnValue. -/
theorem c9NoNestedReturnAmended :
    ∀ (fuel : Nat) (node : Node) (env : Nat) (st : Store) (v : Obj), StoreOK st →
      GoodExpr node ∨ GoodStmt node ∨ GoodBlock node ∨ GoodProgram node →
      (Eval fuel node env st).1 ≠ .val (.returnValue (.returnValue v)) := by
  intro fuel node env st v hst hg h
  rcases hg with hg | hg
  · have h1 := (evalOK fuel node env st hst).1 hg
    have h2 := h1.1 _ h
    cases h2
  · have h1 := (evalOK fuel node env st hst).2 hg
    rcases h1.1 _ h with h2 | ⟨w, hw, h2⟩
    · cases h2
    · injection hw with h3
      subst h3
      cases h2

/-- Witness for c9NoNestedReturnAmended at the literal 1 in the root
store. -/
theorem c9Witness :
    StoreOK rootStore ∧
    (Eval 2 (.integerLiteral 1) 0 rootStore).1
      ≠ .val (.returnValue (.returnValue .null)) := by
  have hst : StoreOK rootStore := by
    intro fr hfr p hp
    simp only [rootStore, List.mem_singleton] at hfr
    subst hfr
    simp at hp
  exact ⟨hst, c9NoNestedReturnAmended 2 (.integerLiteral 1) 0 rootStore .null hst
    (Or.inl (GoodExpr.int 1))⟩
